import Mathlib

/-
  Verification of the HTTP JSON service in `main.go` (skaffold-demo).

  Shallow embedding: the three handlers (`healthHandler`, `helloHandler`,
  `apiHandler`) and the route dispatch of `main` become pure Lean
  functions from an abstract clock reading (the value of `time.Now()`
  for the request) and a request to a structured response.  The JSON
  decoding performed by `json.NewDecoder(r.Body).Decode(&data)` is
  modelled by a recursive-descent JSON reader over the body's
  characters that consumes exactly one JSON value and leaves trailing
  input untouched, as Go's stream decoder does, followed by
  unmarshalling into `map[string]interface\x7b\x7d`: only a top-level
  object (or `null`, which leaves the map nil) decodes, number
  literals are coerced to the nearest IEEE-754 binary64 value (an
  error on overflow, as in `strconv.ParseFloat`), strings are
  unescaped, and objects become maps in which the last of any
  duplicate keys wins and keys are held in the sorted order
  `encoding/json` re-encodes them in.
-/

namespace SkaffoldDemo

/-- A JSON value as handled by `encoding/json`.  Number literals are kept
as the character sequence read from the input; object members are kept
in source order as an association list. -/
inductive Json where
  | null : Json
  | bool (b : Bool) : Json
  | num (lit : List Char) : Json
  | str (s : List Char) : Json
  | arr (elems : List Json) : Json
  | obj (members : List (List Char × Json)) : Json

/-- JSON whitespace accepted between tokens (space, tab, newline,
carriage return), as in Go's scanner. -/
def isJsonWs (c : Char) : Bool :=
  c = ' ' || c = '\t' || c = '\n' || c = '\r'

/-- Drop leading JSON whitespace. -/
def skipWs : List Char → List Char
  | [] => []
  | c :: rest => if isJsonWs c then skipWs rest else c :: rest

/-- Valid single-character escapes after a backslash in a JSON string. -/
def isEscChar (c : Char) : Bool :=
  c = '"' || c = '\\' || c = '/' || c = 'b' || c = 'f' || c = 'n' || c = 'r' || c = 't'

def isHexDigit (c : Char) : Bool :=
  ('0' ≤ c && c ≤ '9') || ('a' ≤ c && c ≤ 'f') || ('A' ≤ c && c ≤ 'F')

/-- Read the body of a JSON string after the opening quote, up to and
including the closing quote.  Escape sequences are kept verbatim in the
result (the model never needs the unescaped text, only which inputs are
accepted); invalid escapes and control characters are rejected as in
Go's scanner.  Returns the string contents and the remaining input. -/
def parseStringBody : List Char → Option (List Char × List Char)
  | [] => none
  | '"' :: rest => some ([], rest)
  | '\\' :: 'u' :: a :: b :: c :: d :: rest =>
    if isHexDigit a && isHexDigit b && isHexDigit c && isHexDigit d then
      (parseStringBody rest).map fun p => ('\\' :: 'u' :: a :: b :: c :: d :: p.1, p.2)
    else none
  | '\\' :: e :: rest =>
    if isEscChar e then
      (parseStringBody rest).map fun p => ('\\' :: e :: p.1, p.2)
    else none
  | c :: rest =>
    if c = '\\' || c.val < 32 then none
    else (parseStringBody rest).map fun p => (c :: p.1, p.2)

def isDigit (c : Char) : Bool := '0' ≤ c && c ≤ '9'

/-- Consume a maximal run of decimal digits. -/
def takeDigits : List Char → List Char × List Char
  | [] => ([], [])
  | c :: rest =>
    if isDigit c then
      let p := takeDigits rest
      (c :: p.1, p.2)
    else ([], c :: rest)

/-- Read the integer part of a JSON number: `0`, or a nonzero digit
followed by more digits (leading zeros are not part of the grammar). -/
def parseIntPart : List Char → Option (List Char × List Char)
  | [] => none
  | c :: rest =>
    if c = '0' then some (['0'], rest)
    else if isDigit c then
      let p := takeDigits rest
      some (c :: p.1, p.2)
    else none

/-- Read the optional fraction part `.digits`. -/
def parseFracPart (input : List Char) : Option (List Char × List Char) :=
  match input with
  | '.' :: rest =>
    match takeDigits rest with
    | ([], _) => none
    | (ds, rest') => some ('.' :: ds, rest')
  | _ => some ([], input)

/-- Read the optional exponent part `(e|E)(+|-)?digits`. -/
def parseExpPart (input : List Char) : Option (List Char × List Char) :=
  match input with
  | e :: rest =>
    if e = 'e' || e = 'E' then
      match rest with
      | s :: rest' =>
        if s = '+' || s = '-' then
          match takeDigits rest' with
          | ([], _) => none
          | (ds, rest'') => some (e :: s :: ds, rest'')
        else
          match takeDigits rest with
          | ([], _) => none
          | (ds, rest'') => some ([e] ++ ds, rest'')
      | [] => none
    else some ([], input)
  | [] => some ([], input)

/-- Read a JSON number literal per the grammar
`-? int frac? exp?`, returning the literal and the remaining input. -/
def parseNumber (input : List Char) : Option (List Char × List Char) :=
  match input with
  | '-' :: rest =>
    match parseIntPart rest with
    | none => none
    | some (ip, r1) =>
      match parseFracPart r1 with
      | none => none
      | some (fp, r2) =>
        match parseExpPart r2 with
        | none => none
        | some (ep, r3) => some ('-' :: (ip ++ fp ++ ep), r3)
  | _ =>
    match parseIntPart input with
    | none => none
    | some (ip, r1) =>
      match parseFracPart r1 with
      | none => none
      | some (fp, r2) =>
        match parseExpPart r2 with
        | none => none
        | some (ep, r3) => some (ip ++ fp ++ ep, r3)

/-- The grammar production the reader is currently in: a value, an
object body right after `\x7b` (a closing brace or a first member may
follow), the member list of an object, an array body right after `[`,
or the element list of an array. -/
inductive PMode where
  | value : PMode
  | objStart : PMode
  | objMembers : PMode
  | arrStart : PMode
  | arrElems : PMode

/-- Recursive-descent JSON reader, fuel-indexed to stay structurally
recursive.  In `value` mode it reads one JSON value, skipping leading
whitespace and leaving trailing input untouched (Go's
`Decoder.Decode` reads one value from the stream); the object and
array modes read the remainder of a composite and return it as a
`Json.obj` or `Json.arr`. -/
def parseF : Nat → PMode → List Char → Option (Json × List Char)
  | 0, _, _ => none
  | fuel + 1, .value, input =>
    match skipWs input with
    | 'n' :: 'u' :: 'l' :: 'l' :: rest => some (.null, rest)
    | 't' :: 'r' :: 'u' :: 'e' :: rest => some (.bool true, rest)
    | 'f' :: 'a' :: 'l' :: 's' :: 'e' :: rest => some (.bool false, rest)
    | '"' :: rest => (parseStringBody rest).map fun p => (.str p.1, p.2)
    | '{' :: rest => parseF fuel .objStart rest
    | '[' :: rest => parseF fuel .arrStart rest
    | other => (parseNumber other).map fun p => (.num p.1, p.2)
  | fuel + 1, .objStart, input =>
    match skipWs input with
    | '}' :: rest => some (.obj [], rest)
    | other => parseF fuel .objMembers other
  | fuel + 1, .objMembers, input =>
    match skipWs input with
    | '"' :: rest =>
      match parseStringBody rest with
      | none => none
      | some (key, r1) =>
        match skipWs r1 with
        | ':' :: r2 =>
          match parseF fuel .value r2 with
          | none => none
          | some (v, r3) =>
            match skipWs r3 with
            | '}' :: r4 => some (.obj [(key, v)], r4)
            | ',' :: r4 =>
              match parseF fuel .objMembers r4 with
              | some (.obj ms, r5) => some (.obj ((key, v) :: ms), r5)
              | _ => none
            | _ => none
        | _ => none
    | _ => none
  | fuel + 1, .arrStart, input =>
    match skipWs input with
    | ']' :: rest => some (.arr [], rest)
    | other => parseF fuel .arrElems other
  | fuel + 1, .arrElems, input =>
    match parseF fuel .value input with
    | none => none
    | some (v, r1) =>
      match skipWs r1 with
      | ']' :: r2 => some (.arr [v], r2)
      | ',' :: r2 =>
        match parseF fuel .arrElems r2 with
        | some (.arr es, r3) => some (.arr (v :: es), r3)
        | _ => none
      | _ => none

/-- Read one JSON value from the body, with fuel ample for the input's
length (every three fuel units consume at least one character, so this
bound never cuts off a parse of the given input). -/
def parseJson (body : List Char) : Option (Json × List Char) :=
  parseF (3 * body.length + 8) .value body

/-- The value of a hexadecimal digit, both cases (the scanner has
already validated the digit). -/
def hexVal (c : Char) : Nat :=
  if '0' ≤ c && c ≤ '9' then c.toNat - 48
  else if 'a' ≤ c && c ≤ 'f' then c.toNat - 87
  else if 'A' ≤ c && c ≤ 'F' then c.toNat - 55
  else 0

def hexQuad (a b c d : Char) : Nat :=
  ((hexVal a * 16 + hexVal b) * 16 + hexVal c) * 16 + hexVal d

/-- The character denoted by a single-character escape: `n`, `t`, `r`,
`b`, `f` map to their control characters; `"` and `\\` and `/` map to
themselves. -/
def escChar (c : Char) : Char :=
  if c = 'n' then '\n'
  else if c = 't' then '\t'
  else if c = 'r' then '\r'
  else if c = 'b' then Char.ofNat 8
  else if c = 'f' then Char.ofNat 12
  else c

/-- Unescape a scanned JSON string as Go's `unquote` does: simple
escapes become their characters, `\u` escapes become the code point,
a high/low surrogate `\u` pair combines into one character, and a
lone or ill-paired surrogate becomes U+FFFD while scanning resumes
right after the lone escape.  Fuel-driven (each step consumes at
least one character) to stay structurally recursive. -/
def unescF : Nat → List Char → List Char
  | 0, _ => []
  | _ + 1, [] => []
  | f + 1, '\\' :: 'u' :: a :: b :: c :: d :: rest =>
    let code := hexQuad a b c d
    if 55296 ≤ code && code ≤ 56319 then
      match rest with
      | '\\' :: 'u' :: a2 :: b2 :: c2 :: d2 :: rest2 =>
        let code2 := hexQuad a2 b2 c2 d2
        if 56320 ≤ code2 && code2 ≤ 57343 then
          Char.ofNat (65536 + (code - 55296) * 1024 + (code2 - 56320)) ::
            unescF f rest2
        else Char.ofNat 65533 :: unescF f rest
      | _ => Char.ofNat 65533 :: unescF f rest
    else if 56320 ≤ code && code ≤ 57343 then
      Char.ofNat 65533 :: unescF f rest
    else
      Char.ofNat code :: unescF f rest
  | f + 1, '\\' :: e :: rest => escChar e :: unescF f rest
  | f + 1, c :: rest => c :: unescF f rest

def unescapeChars (s : List Char) : List Char := unescF (s.length + 1) s

def digitsVal (ds : List Char) : Nat :=
  ds.foldl (fun a c => 10 * a + (c.toNat - 48)) 0

/-- Split a scanned number literal into a decimal mantissa and
exponent, so the literal denotes exactly `m * 10 ^ e10`. -/
def splitNumLit (lit : List Char) : Int × Int :=
  let parts := lit.span fun c => !(c = 'e' || c = 'E')
  let expVal : Int :=
    match parts.2 with
    | _ :: '+' :: ds => (digitsVal ds : Int)
    | _ :: '-' :: ds => -(digitsVal ds : Int)
    | _ :: ds => (digitsVal ds : Int)
    | [] => 0
  let signMant : Bool × List Char :=
    match parts.1 with
    | '-' :: t => (true, t)
    | t => (false, t)
  let intFrac := signMant.2.span isDigit
  let fracDs : List Char :=
    match intFrac.2 with
    | '.' :: t => t
    | _ => []
  let mag : Int := (digitsVal (intFrac.1 ++ fracDs) : Int)
  (if signMant.1 then -mag else mag, expVal - (fracDs.length : Int))

/-- `powChunk b f k` is `b ^ k` for any fuel `f ≥ k`, computed in
64-bit chunks so that it evaluates by shallow reduction. -/
def powChunk (b : Nat) : Nat → Nat → Nat
  | 0, _ => 1
  | f + 1, k => if k < 64 then b ^ k else powChunk b f (k - 64) * b ^ 64

/-- `2 ^ k`, evaluating by shallow reduction. -/
def pow2 (k : Nat) : Nat := powChunk 2 k k

/-- `10 ^ k`, evaluating by shallow reduction. -/
def pow10 (k : Nat) : Nat := powChunk 10 k k

/-- Number of binary digits of `n` below `2 ^ 2 ^ k` (0 for 0), by
binary search on the split point: exact whenever `n < 2 ^ 2 ^ k`. -/
def blSmall : Nat → Nat → Nat
  | 0, n => if n = 0 then 0 else 1
  | k + 1, n =>
    let h := 2 ^ 2 ^ k
    if n < h then blSmall k n else blSmall k (n / h) + 2 ^ k

/-- Number of binary digits of `n` (0 for 0), fuel-driven, peeling 64
bits per step so that it evaluates by shallow reduction; any fuel at
least the bit count of `n` gives the exact answer. -/
def bitlenF : Nat → Nat → Nat
  | 0, _ => 0
  | f + 1, n =>
    if n < 2 ^ 64 then blSmall 6 n else bitlenF f (n / 2 ^ 64) + 64

/-- Split off the largest power of two: `oddCore f m` is `(o, s)` with
`m = o * 2 ^ s` and `o` odd, for any fuel at least the bit count of
`m`. -/
def oddCore : Nat → Nat → Nat × Nat
  | 0, m => (m, 0)
  | f + 1, m =>
    if m % 2 = 0 && m != 0 then
      let p := oddCore f (m / 2)
      (p.1, p.2 + 1)
    else (m, 0)

/-- Round the exact value `m * 10 ^ e10` to the nearest IEEE-754
binary64 value, ties to even, as `strconv.ParseFloat` does: the result
is the canonical pair (odd mantissa, binary exponent) of the finite
double, `(0, 0)` when the value underflows to zero (not an error in
Go), and `none` when it overflows the finite range — `ParseFloat`
then returns `ErrRange` and `json` surfaces an unmarshalling error.
The sign of a floating-point zero is abstracted.  `bfuel` must be at
least the bit count of both the scaled numerator and denominator; the
caller derives it from the literal's digit count.  The rounded
mantissa is below `2 ^ 53`, so the constant fuel 64 covers the
odd-part extraction. -/
def roundFloat (bfuel : Nat) (m : Int) (e10 : Int) : Option (Int × Int) :=
  if m = 0 then some (0, 0)
  else
    let n : Nat := m.natAbs * pow10 e10.toNat
    let d : Nat := pow10 (-e10).toNat
    let e0 : Int := (bitlenF bfuel n : Int) - (bitlenF bfuel d : Int)
    let le0 : Bool :=
      if 0 ≤ e0 then d * pow2 e0.toNat ≤ n else d ≤ n * pow2 (-e0).toNat
    let e : Int := if le0 then e0 else e0 - 1
    let q : Int := max (-1074) (e - 52)
    let nn : Nat := n * pow2 (-q).toNat
    let dd : Nat := d * pow2 q.toNat
    let m0 : Nat := nn / dd
    let r : Nat := nn % dd
    let mr : Nat :=
      if 2 * r < dd then m0
      else if dd < 2 * r then m0 + 1
      else if m0 % 2 = 0 then m0 else m0 + 1
    if pow2 1024 * pow2 (-q).toNat ≤ mr * pow2 q.toNat then none
    else if mr = 0 then some (0, 0)
    else
      let os := oddCore 64 mr
      some ((if m < 0 then -(os.1 : Int) else (os.1 : Int)), q + (os.2 : Int))

/-- Decode a number literal to its float64, `none` on overflow.  The
bit-length fuel `4 * (lit.length + e10.natAbs) + 8` is ample: the
mantissa has fewer than `lit.length` decimal digits and each decimal
digit or unit of exponent contributes fewer than 4 bits. -/
def decodeNumLit (lit : List Char) : Option (Int × Int) :=
  let me := splitNumLit lit
  roundFloat (4 * (lit.length + me.2.natAbs) + 8) me.1 me.2

/-- A Go value as `json.Unmarshal` builds inside an `interface\x7b\x7d`:
`nil`, `bool`, `float64`, `string`, `[]interface\x7b\x7d`, or
`map[string]interface\x7b\x7d`.  A number is the finite float64 the
literal rounded to, held canonically as `mant * 2 ^ bexp` with `mant`
odd (or `(0, 0)` for zero; the sign of a floating-point zero is
abstracted).  Strings are unescaped.  A map holds one binding per key
in ascending key order — the order `encoding/json` re-encodes map keys
in. -/
inductive GoValue where
  | null : GoValue
  | bool (b : Bool) : GoValue
  | num (mant : Int) (bexp : Int) : GoValue
  | str (s : List Char) : GoValue
  | arr (elems : List GoValue) : GoValue
  | obj (members : List (List Char × GoValue)) : GoValue

/-- Byte-wise (equivalently code-point-wise) string order, the order
Go sorts map keys in when encoding. -/
def keyLt : List Char → List Char → Bool
  | [], [] => false
  | [], _ :: _ => true
  | _ :: _, [] => false
  | a :: as, b :: bs =>
    if a < b then true else if b < a then false else keyLt as bs

/-- Insert a binding into a key-sorted map, keeping the existing
binding when the key is already present (the decoder processes members
left to right and a later duplicate overwrites an earlier one, so when
building from the right the existing — later — binding wins, as in
Go's map assignment). -/
def mapInsert (k : List Char) (g : GoValue) :
    List (List Char × GoValue) → List (List Char × GoValue)
  | [] => [(k, g)]
  | (k', g') :: rest =>
    if keyLt k k' then (k, g) :: (k', g') :: rest
    else if k = k' then (k', g') :: rest
    else (k', g') :: mapInsert k g rest

/-- Decode a parsed JSON value into the Go value `json.Unmarshal`
builds in an `interface\x7b\x7d`: numbers round to float64 (`none` on
overflow), strings unescape, arrays decode pointwise, and objects
become maps with unescaped keys, the last of any duplicate keys
winning.  Fuel-driven to stay structurally recursive; a recursion step
either enters a child value or peels one container element, so the
fuel needed is at most the node count of the tree. -/
def goDecodeF : Nat → Json → Option GoValue
  | 0, _ => none
  | _ + 1, .null => some .null
  | _ + 1, .bool b => some (.bool b)
  | _ + 1, .str s => some (.str (unescapeChars s))
  | _ + 1, .num lit =>
    (decodeNumLit lit).map fun p => .num p.1 p.2
  | _ + 1, .arr [] => some (.arr [])
  | f + 1, .arr (v :: rest) =>
    match goDecodeF f v, goDecodeF f (.arr rest) with
    | some g, some (.arr gs) => some (.arr (g :: gs))
    | _, _ => none
  | _ + 1, .obj [] => some (.obj [])
  | f + 1, .obj ((k, v) :: rest) =>
    match goDecodeF f v, goDecodeF f (.obj rest) with
    | some g, some (.obj gs) => some (.obj (mapInsert (unescapeChars k) g gs))
    | _, _ => none

/-- The result of decoding a parsed top-level value into
`map[string]interface\x7b\x7d`: an object decodes as a Go map (which
can still fail, on a number overflowing float64), `null` succeeds
leaving the map nil (re-encoded as `null`), and any other top-level
value (array, string, number, boolean) is an unmarshalling type
error. -/
def jsonToMapValue (v : Json) (fuel : Nat) : Option GoValue :=
  match v with
  | .obj ms => goDecodeF fuel (.obj ms)
  | .null => some .null
  | _ => none

/-- The result of `json.NewDecoder(r.Body).Decode(&data)` with
`data : map[string]interface\x7b\x7d`, as the value `data` holds
afterwards: the body must scan as one JSON value whose top level is an
object (or `null`), and its contents must unmarshal — numbers coerced
to float64, strings unescaped, duplicate keys collapsed to the last.
A body that is not valid JSON, has the wrong top-level type, or holds
a float64-overflowing number makes `Decode` return a non-nil error.
The decode fuel `2 * body.length + 8` is ample: the tree has at most
one node per source character. -/
def decodeMapValue (body : List Char) : Option GoValue :=
  match parseJson body with
  | some (v, _) => jsonToMapValue v (2 * body.length + 8)
  | none => none

/-- An HTTP request as far as the handlers can observe it: method, URL
path, query string, headers, and body bytes.  No handler of the service
reads the query or the headers; they are carried so that independence
from them is a provable statement rather than a modelling assumption. -/
structure Request where
  method : String
  path : String
  query : String
  headers : List (String × String)
  body : List Char

/-- The four response-body shapes the service produces, mirroring the
Go structs `HealthResponse`, `MessageResponse`, the ad-hoc echo map of
`apiHandler`, and `ErrorResponse`.  `ErrorResponse` carries no
timestamp field in the source. -/
inductive RespBody where
  | health (status : String) (timestamp : Nat) (version : String)
  | message (msg : String) (timestamp : Nat)
  | echo (received : GoValue) (timestamp : Nat)
  | err (error : String)

/-- A response: status code, `Content-Type` header value, body. -/
structure Response where
  status : Nat
  contentType : String
  body : RespBody

/-- `healthHandler`: sets the JSON content type and encodes
`HealthResponse\x7bStatus: "healthy", Timestamp: time.Now(), Version: "1.0.0"\x7d`
with the implicit 200 status. -/
def healthHandler (now : Nat) (_r : Request) : Response :=
  { status := 200
    contentType := "application/json"
    body := .health "healthy" now "1.0.0" }

/-- `helloHandler`: sets the JSON content type and encodes a
`MessageResponse` with the greeting and `time.Now()`, implicit 200. -/
def helloHandler (now : Nat) (_r : Request) : Response :=
  { status := 200
    contentType := "application/json"
    body := .message "Hello from Go + Kubernetes + Skaffold with Air hot reload!" now }

/-- `apiHandler`: sets the JSON content type, then switches on the
method.  GET answers 200 with a `MessageResponse`; POST decodes the
body into a `map[string]interface\x7b\x7d` and answers 200 with
`received`/`timestamp` on success or 400 with
`ErrorResponse\x7bError: "Invalid JSON"\x7d` on decode error; any other
method answers 405 with `ErrorResponse\x7bError: "Method not allowed"\x7d`. -/
def apiHandler (now : Nat) (r : Request) : Response :=
  if r.method = "GET" then
    { status := 200
      contentType := "application/json"
      body := .message "API endpoint is working" now }
  else if r.method = "POST" then
    match decodeMapValue r.body with
    | some v =>
      { status := 200
        contentType := "application/json"
        body := .echo v now }
    | none =>
      { status := 400
        contentType := "application/json"
        body := .err "Invalid JSON" }
  else
    { status := 405
      contentType := "application/json"
      body := .err "Method not allowed" }

/-- The route dispatch of `main`: `http.HandleFunc` registers
`/health` and `/api` as exact patterns and `/` as the subtree pattern
that catches every other path, for every method. -/
def serve (now : Nat) (r : Request) : Response :=
  if r.path = "/health" then healthHandler now r
  else if r.path = "/api" then apiHandler now r
  else helloHandler now r

/-- The timestamp field of a response body, when the shape has one. -/
def respTimestamp : RespBody → Option Nat
  | .health _ t _ => some t
  | .message _ t => some t
  | .echo _ t => some t
  | .err _ => none

/-- Responses of a sequence of requests handled one after the other,
each paired with the clock reading taken while handling it. -/
def serveSeq (reqs : List (Nat × Request)) : List Response :=
  reqs.map fun p => serve p.1 p.2

/-- C5: `GET /health` always returns HTTP 200 with status `"healthy"`,
the current timestamp, and the fixed version constant `"1.0.0"`,
whatever the body, query, headers or any prior request (the model is a
pure function of the single request, so statelessness is by
construction, and the handler consults nothing but the clock). -/
theorem get_health_always_healthy (now : Nat) (q : String)
    (hs : List (String × String)) (b : List Char) :
    serve now ⟨"GET", "/health", q, hs, b⟩ =
      ⟨200, "application/json", .health "healthy" now "1.0.0"⟩ := rfl

/-- C9: `POST /api` with body exactly the JSON literal `null` returns
HTTP 200 with `received` equal to JSON null (decoding `null` into a
`map[string]interface\x7b\x7d` succeeds and leaves the map nil, which
re-encodes as `null`), not the 400 Invalid JSON error. -/
theorem post_api_null_body_echoes_null (now : Nat) (q : String)
    (hs : List (String × String)) :
    serve now ⟨"POST", "/api", q, hs, ['n', 'u', 'l', 'l']⟩ =
      ⟨200, "application/json", .echo .null now⟩ := rfl

/-- C2: whenever the request body is not valid JSON (the reader fails
on it), `POST /api` answers HTTP 400 with the error body
`\x7b"error": "Invalid JSON"\x7d`. -/
theorem post_api_invalid_json_400 (now : Nat) (q : String)
    (hs : List (String × String)) (body : List Char)
    (h : parseJson body = none) :
    serve now ⟨"POST", "/api", q, hs, body⟩ =
      ⟨400, "application/json", .err "Invalid JSON"⟩ := by
  simp [serve, apiHandler, decodeMapValue, h]

/-- C2 witness: the three example bodies of the claim — the string
`invalid-json`, the empty body, and the truncated `\x7b` — each draw
the 400 Invalid JSON response. -/
theorem post_api_invalid_json_400_witness :
    serve 0 ⟨"POST", "/api", "", [], "invalid-json".data⟩ =
        ⟨400, "application/json", .err "Invalid JSON"⟩ ∧
    serve 0 ⟨"POST", "/api", "", [], []⟩ =
        ⟨400, "application/json", .err "Invalid JSON"⟩ ∧
    serve 0 ⟨"POST", "/api", "", [], ['{']⟩ =
        ⟨400, "application/json", .err "Invalid JSON"⟩ :=
  ⟨post_api_invalid_json_400 0 "" [] "invalid-json".data rfl,
   post_api_invalid_json_400 0 "" [] [] rfl,
   post_api_invalid_json_400 0 "" [] ['{'] rfl⟩

/-- C3 (amended): any method other than GET and POST on `/api` draws
HTTP 405 with `\x7b"error": "Method not allowed"\x7d`; requests to
unregistered paths, however, are not rejected (see the
counterexample: the catch-all root pattern serves them with 200). -/
theorem api_other_method_405 (now : Nat) (r : Request)
    (hp : r.path = "/api") (h1 : r.method ≠ "GET") (h2 : r.method ≠ "POST") :
    serve now r = ⟨405, "application/json", .err "Method not allowed"⟩ := by
  simp [serve, hp, apiHandler, h1, h2]

/-- C3 witness: `PUT /api` draws the 405 Method-not-allowed response. -/
theorem api_other_method_405_witness :
    serve 0 ⟨"PUT", "/api", "", [], []⟩ =
      ⟨405, "application/json", .err "Method not allowed"⟩ :=
  api_other_method_405 0 ⟨"PUT", "/api", "", [], []⟩ rfl (by decide) (by decide)

/-- C3 counterexample: a request to an unregistered path is not
answered with 405 — `PUT /nosuch` falls into the catch-all `/` pattern
and gets the 200 hello message, refuting the claim for unmatched
path-and-method combinations. -/
theorem unmatched_path_not_405 :
    serve 0 ⟨"PUT", "/nosuch", "", [], []⟩ =
      ⟨200, "application/json",
        .message "Hello from Go + Kubernetes + Skaffold with Air hot reload!" 0⟩ := rfl

/-- C1 (amended): for a body that parses as a JSON value `v`,
`POST /api` returns HTTP 200 exactly when `v` decodes into
`map[string]interface\x7b\x7d` — a top-level object all of whose
numbers round to finite float64s, or `null` — and the `received`
field then deep-equals the decoded Go value: numbers coerced to the
nearest float64 (not the verbatim literal), strings unescaped, only
the last of duplicate keys kept.  Otherwise — a non-object, non-null
top level, or a number overflowing float64 — the response is the 400
Invalid JSON error. -/
theorem post_api_echoes_decodable_values (now : Nat) (q : String)
    (hs : List (String × String)) (body : List Char) (v : Json)
    (rest : List Char) (h : parseJson body = some (v, rest)) :
    serve now ⟨"POST", "/api", q, hs, body⟩ =
      match jsonToMapValue v (2 * body.length + 8) with
      | some g => ⟨200, "application/json", .echo g now⟩
      | none => ⟨400, "application/json", .err "Invalid JSON"⟩ := by
  have hd : decodeMapValue body = jsonToMapValue v (2 * body.length + 8) := by
    simp [decodeMapValue, h]
  cases hj : jsonToMapValue v (2 * body.length + 8) <;>
    simp [serve, apiHandler, hd, hj]

/-- C1 witness: the concrete scenario of the spec — posting
`\x7b"name":"Test"\x7d` yields 200 with the object echoed back as the
decoded Go map. -/
theorem post_api_echoes_decodable_values_witness :
    serve 5 ⟨"POST", "/api", "", [],
        ['{', '"', 'n', 'a', 'm', 'e', '"', ':', '"', 'T', 'e', 's', 't', '"', '}']⟩ =
      ⟨200, "application/json",
        .echo (.obj [(['n', 'a', 'm', 'e'], .str ['T', 'e', 's', 't'])]) 5⟩ :=
  post_api_echoes_decodable_values 5 "" []
    ['{', '"', 'n', 'a', 'm', 'e', '"', ':', '"', 'T', 'e', 's', 't', '"', '}']
    (.obj [(['n', 'a', 'm', 'e'], .str ['T', 'e', 's', 't'])]) [] rfl

/-- C1 counterexample: four concrete refutations of the claim that
every valid JSON body is echoed back verbatim with 200.  First, the
body `[]` is valid JSON yet draws 400: a top-level array does not
decode into `map[string]interface\x7b\x7d`.  Second, the body
`\x7b"a":1e999\x7d` is a valid JSON object yet draws 400: `1e999`
overflows float64 and `Decode` errors.  Third, the bodies
`\x7b"a":1.0\x7d` and `\x7b"a":1\x7d` produce identical responses —
float64 coercion collapses distinct bodies, so the round-trip is not
verbatim.  Fourth, the body `\x7b"a":1,"a":2\x7d` is echoed with the
single binding `a = 2`: the first of the duplicate keys is dropped,
not preserved. -/
theorem post_api_echo_not_verbatim :
    (parseJson ['[', ']'] = some (.arr [], []) ∧
      serve 0 ⟨"POST", "/api", "", [], ['[', ']']⟩ =
        ⟨400, "application/json", .err "Invalid JSON"⟩) ∧
    (parseJson ['{', '"', 'a', '"', ':', '1', 'e', '9', '9', '9', '}'] =
        some (.obj [(['a'], .num ['1', 'e', '9', '9', '9'])], []) ∧
      serve 0 ⟨"POST", "/api", "", [],
          ['{', '"', 'a', '"', ':', '1', 'e', '9', '9', '9', '}']⟩ =
        ⟨400, "application/json", .err "Invalid JSON"⟩) ∧
    (serve 0 ⟨"POST", "/api", "", [], ['{', '"', 'a', '"', ':', '1', '.', '0', '}']⟩ =
        serve 0 ⟨"POST", "/api", "", [], ['{', '"', 'a', '"', ':', '1', '}']⟩) ∧
    (serve 0 ⟨"POST", "/api", "", [],
        ['{', '"', 'a', '"', ':', '1', ',', '"', 'a', '"', ':', '2', '}']⟩ =
      ⟨200, "application/json", .echo (.obj [(['a'], .num 1 1)]) 0⟩) :=
  ⟨⟨rfl, rfl⟩, ⟨rfl, rfl⟩, rfl, rfl⟩

/-- C4 (amended): every HTTP 200 response carries a timestamp equal to
the clock reading taken while the response was constructed; the 400
and 405 error responses are built from `ErrorResponse`, which has no
timestamp field (see the counterexample). -/
theorem ok_responses_carry_timestamp (now : Nat) (r : Request)
    (h : (serve now r).status = 200) :
    respTimestamp (serve now r).body = some now := by
  by_cases hp1 : r.path = "/health"
  · simp [serve, hp1, healthHandler, respTimestamp]
  by_cases hp2 : r.path = "/api"
  · by_cases hm1 : r.method = "GET"
    · simp [serve, hp1, hp2, apiHandler, hm1, respTimestamp]
    · by_cases hm2 : r.method = "POST"
      · cases hd : decodeMapValue r.body with
        | some v => simp [serve, hp1, hp2, apiHandler, hm1, hm2, hd, respTimestamp]
        | none => simp [serve, hp1, hp2, apiHandler, hm1, hm2, hd] at h
      · simp [serve, hp1, hp2, apiHandler, hm1, hm2] at h
  · simp [serve, hp1, hp2, helloHandler, respTimestamp]

/-- C4 witness: the 200 response to `GET /` carries the clock reading
as its timestamp. -/
theorem ok_responses_carry_timestamp_witness :
    respTimestamp (serve 3 ⟨"GET", "/", "", [], []⟩).body = some 3 :=
  ok_responses_carry_timestamp 3 ⟨"GET", "/", "", [], []⟩ rfl

/-- C4 counterexample: the 405 response to `PUT /api` is a response
produced by the service with no timestamp field at all, refuting the
claim that every response contains one. -/
theorem error_response_lacks_timestamp :
    (serve 0 ⟨"PUT", "/api", "", [], []⟩).status = 405 ∧
    respTimestamp (serve 0 ⟨"PUT", "/api", "", [], []⟩).body = none :=
  ⟨rfl, rfl⟩

/-- C6: every response of every handler — the 200s, the 400 and the
405 — carries `Content-Type: application/json`; each handler sets the
header before writing anything. -/
theorem all_responses_json_content_type (now : Nat) (r : Request) :
    (serve now r).contentType = "application/json" := by
  by_cases hp1 : r.path = "/health"
  · simp [serve, hp1, healthHandler]
  by_cases hp2 : r.path = "/api"
  · by_cases hm1 : r.method = "GET"
    · simp [serve, hp1, hp2, apiHandler, hm1]
    · by_cases hm2 : r.method = "POST"
      · cases hd : decodeMapValue r.body <;>
          simp [serve, hp1, hp2, apiHandler, hm1, hm2, hd]
      · simp [serve, hp1, hp2, apiHandler, hm1, hm2]
  · simp [serve, hp1, hp2, helloHandler]

/-- C7: `GET /`, `GET /health` and `GET /api` never read the request
body, the query string or the headers — the response is identical for
any two choices of them — and never fail: they always answer 200. -/
theorem get_routes_ignore_body_and_succeed (now : Nat) (p : String)
    (q1 q2 : String) (h1 h2 : List (String × String)) (b1 b2 : List Char)
    (hp : p = "/" ∨ p = "/health" ∨ p = "/api") :
    serve now ⟨"GET", p, q1, h1, b1⟩ = serve now ⟨"GET", p, q2, h2, b2⟩ ∧
    (serve now ⟨"GET", p, q1, h1, b1⟩).status = 200 := by
  rcases hp with hp | hp | hp <;> subst hp <;>
    exact ⟨by simp [serve, helloHandler, healthHandler, apiHandler],
           by simp [serve, helloHandler, healthHandler, apiHandler]⟩

/-- C7 witness: at the three concrete routes, a GET with a body, a
query and a header is answered exactly like a bare GET, with 200. -/
theorem get_routes_ignore_body_and_succeed_witness :
    (serve 1 ⟨"GET", "/", "x=1", [("H", "v")], ['z']⟩ =
        serve 1 ⟨"GET", "/", "", [], []⟩ ∧
      (serve 1 ⟨"GET", "/", "x=1", [("H", "v")], ['z']⟩).status = 200) ∧
    (serve 1 ⟨"GET", "/health", "x=1", [("H", "v")], ['z']⟩ =
        serve 1 ⟨"GET", "/health", "", [], []⟩ ∧
      (serve 1 ⟨"GET", "/health", "x=1", [("H", "v")], ['z']⟩).status = 200) ∧
    (serve 1 ⟨"GET", "/api", "x=1", [("H", "v")], ['z']⟩ =
        serve 1 ⟨"GET", "/api", "", [], []⟩ ∧
      (serve 1 ⟨"GET", "/api", "x=1", [("H", "v")], ['z']⟩).status = 200) :=
  ⟨get_routes_ignore_body_and_succeed 1 "/" "x=1" "" [("H", "v")] [] ['z'] []
      (Or.inl rfl),
   get_routes_ignore_body_and_succeed 1 "/health" "x=1" "" [("H", "v")] [] ['z'] []
      (Or.inr (Or.inl rfl)),
   get_routes_ignore_body_and_succeed 1 "/api" "x=1" "" [("H", "v")] [] ['z'] []
      (Or.inr (Or.inr rfl))⟩

/-- Every timestamp a response carries is the clock reading taken while
that response was constructed. -/
theorem respTimestamp_serve (n : Nat) (r : Request) :
    respTimestamp (serve n r).body = none ∨
    respTimestamp (serve n r).body = some n := by
  by_cases hp1 : r.path = "/health"
  · right; simp [serve, hp1, healthHandler, respTimestamp]
  by_cases hp2 : r.path = "/api"
  · by_cases hm1 : r.method = "GET"
    · right; simp [serve, hp1, hp2, apiHandler, hm1, respTimestamp]
    · by_cases hm2 : r.method = "POST"
      · cases hd : decodeMapValue r.body with
        | some v =>
          right; simp [serve, hp1, hp2, apiHandler, hm1, hm2, hd, respTimestamp]
        | none =>
          left; simp [serve, hp1, hp2, apiHandler, hm1, hm2, hd, respTimestamp]
      · left; simp [serve, hp1, hp2, apiHandler, hm1, hm2, respTimestamp]
  · right; simp [serve, hp1, hp2, helloHandler, respTimestamp]

/-- The timestamps appearing in a sequence of responses form a sublist
of the clock readings taken for the requests (error responses carry
none; every other response carries exactly its clock reading). -/
theorem serveSeq_timestamps_sublist (reqs : List (Nat × Request)) :
    ((serveSeq reqs).filterMap fun resp => respTimestamp resp.body).Sublist
      (reqs.map Prod.fst) := by
  induction reqs with
  | nil => simp [serveSeq]
  | cons p l ih =>
    rcases respTimestamp_serve p.1 p.2 with h | h
    · simpa [serveSeq, h] using List.Sublist.cons p.1 ih
    · simpa [serveSeq, h] using List.Sublist.cons₂ p.1 ih

/-- C8: across a sequence of requests handled in order, if the clock
readings are non-decreasing (Go's `time.Now` is monotonic within a
process), the timestamps carried by the responses are non-decreasing
in request order. -/
theorem seq_response_timestamps_monotone (reqs : List (Nat × Request))
    (h : (reqs.map Prod.fst).Sorted (· ≤ ·)) :
    ((serveSeq reqs).filterMap fun resp => respTimestamp resp.body).Sorted
      (· ≤ ·) :=
  h.sublist (serveSeq_timestamps_sublist reqs)

/-- C8 witness: three sequential requests at clock readings 1, 2, 2 —
a health check, an invalid POST (whose 400 carries no timestamp), and
a hello — yield non-decreasing response timestamps. -/
theorem seq_response_timestamps_monotone_witness :
    ((serveSeq [(1, ⟨"GET", "/health", "", [], []⟩),
                (2, ⟨"POST", "/api", "", [], ['{']⟩),
                (2, ⟨"GET", "/", "", [], []⟩)]).filterMap fun resp =>
        respTimestamp resp.body).Sorted (· ≤ ·) :=
  seq_response_timestamps_monotone
    [(1, ⟨"GET", "/health", "", [], []⟩),
     (2, ⟨"POST", "/api", "", [], ['{']⟩),
     (2, ⟨"GET", "/", "", [], []⟩)] (by decide)

/-- With any sufficient fuel, reading one JSON value from the input
`\x7b"a":1\x7d` followed by arbitrary trailing input yields the
one-member object and leaves the trailing input unconsumed. -/
theorem parseF_obj_a1 (k : Nat) (t : List Char) :
    parseF (k + 4) .value ('{' :: '"' :: 'a' :: '"' :: ':' :: '1' :: '}' :: t) =
      some (.obj [(['a'], .num ['1'])], t) := rfl

/-- With any sufficient fuel, decoding the parsed object
`\x7b"a":1\x7d` into a Go map yields the single binding of `a` to the
float64 1 (canonically mantissa 1, exponent 0). -/
theorem goDecodeF_obj_a1 (k : Nat) :
    goDecodeF (k + 3) (.obj [(['a'], .num ['1'])]) =
      some (.obj [(['a'], GoValue.num 1 0)]) := rfl

/-- A POST to `/api` whose body decodes into `map[string]interface\x7b\x7d`
is answered 200 with the decoded value echoed. -/
theorem post_api_of_decode (now : Nat) (q : String)
    (hs : List (String × String)) (b : List Char) (g : GoValue)
    (hd : decodeMapValue b = some g) :
    serve now ⟨"POST", "/api", q, hs, b⟩ =
      ⟨200, "application/json", .echo g now⟩ := by
  simp [serve, apiHandler, hd]

/-- C10: `POST /api` with a body made of the JSON object `\x7b"a":1\x7d`
followed by arbitrary trailing bytes answers HTTP 200 echoing the
decoded object (1 round-trips float64 exactly): the stream decoder
reads one value and never looks at the rest, so the trailing bytes are
silently ignored. -/
theorem post_api_trailing_bytes_ignored (now : Nat) (q : String)
    (hs : List (String × String)) (trailing : List Char) :
    serve now ⟨"POST", "/api", q, hs,
        '{' :: '"' :: 'a' :: '"' :: ':' :: '1' :: '}' :: trailing⟩ =
      ⟨200, "application/json",
        .echo (.obj [(['a'], GoValue.num 1 0)]) now⟩ := by
  have hb : parseJson ('{' :: '"' :: 'a' :: '"' :: ':' :: '1' :: '}' :: trailing) =
      some (.obj [(['a'], .num ['1'])], trailing) := by
    have hlen :
        3 * ('{' :: '"' :: 'a' :: '"' :: ':' :: '1' :: '}' :: trailing).length + 8 =
          (3 * trailing.length + 25) + 4 := by
      simp [List.length_cons]; omega
    unfold parseJson
    rw [hlen]
    exact parseF_obj_a1 (3 * trailing.length + 25) trailing
  have hd : decodeMapValue ('{' :: '"' :: 'a' :: '"' :: ':' :: '1' :: '}' :: trailing) =
      some (.obj [(['a'], GoValue.num 1 0)]) := by
    have hlen2 :
        2 * ('{' :: '"' :: 'a' :: '"' :: ':' :: '1' :: '}' :: trailing).length + 8 =
          (2 * trailing.length + 19) + 3 := by
      simp [List.length_cons]; omega
    simp [decodeMapValue, hb, jsonToMapValue, hlen2, goDecodeF_obj_a1]
  exact post_api_of_decode now q hs _ _ hd

end SkaffoldDemo
